import Mathlib

/-!
Verification of the data-science-utils repository against its specification.

The Python modules are shallowly embedded:
* `src/src/demographics.py`  — `birth_generation`
* `src/src/ratios.py`        — `calc_create_ratios`
* `src/aggregations.py`      — `make_count_aggregation`, `make_sum_aggregation`,
                               `make_mean_aggregation`
* `src/timestamps.py`        — `process_timestamps`
* `src/src/geocode.py`       — `get_location_demographics_from_dict`,
                               `construct_municipal_area`, `parallel_construct_municipal_area`
                               (the shard partitioning via `np.array_split`)

Pandas dataframes are modelled as association lists from column names to
columns; pandas scalar values are modelled by tagged value types whose
equality mirrors the (type-tagged) equality pandas uses for `isin`,
`fillna` and friends.  External dependencies (the `uszipcode` search
engine, the `USFederalHolidayCalendar`) are opaque parameters.
-/

namespace DSUtils

/-! ## Generic dataframe helpers -/

/-- `df[name] = v` — pandas column assignment: overwrite the column in place
when the name already exists, otherwise append a new column at the end. -/
def dfSetCol {α : Type} (t : List (String × α)) (name : String) (v : α) :
    List (String × α) :=
  if t.any (fun p => p.1 = name) then
    t.map (fun p => if p.1 = name then (name, v) else p)
  else
    t ++ [(name, v)]

/-- `df[name]` — the first column carrying `name`. -/
def dfGet {α : Type} (t : List (String × α)) (name : String) : Option α :=
  (t.find? (fun p => p.1 = name)).map Prod.snd

/-- `df.iloc[:, i]` — positional column access. -/
def dfIloc {V : Type} (t : List (String × List V)) (i : Nat) : List V :=
  ((t[i]?).map Prod.snd).getD []

/-! ## demographics.py — `birth_generation` -/

/-- `birth_year in range(a, b)` for the Python half-open range. -/
def inRange (a b year : Int) : Prop := a ≤ year ∧ year < b

instance (a b year : Int) : Decidable (inRange a b year) := by
  unfold inRange; infer_instance

/-- Embedding of `birth_generation` (src/src/demographics.py): the chain of
half-open range tests, first match wins, `'Unknown'` otherwise. -/
def birth_generation (birth_year : Int) : String :=
  if inRange 1890 1915 birth_year then "Lost Generation"
  else if inRange 1901 1913 birth_year then "Interbellum Generation"
  else if inRange 1910 1924 birth_year then "Greatest Generation"
  else if inRange 1925 1945 birth_year then "Silent Generation"
  else if inRange 1946 1964 birth_year then "Baby Boomers"
  else if inRange 1965 1979 birth_year then "Generation X"
  else if inRange 1975 1985 birth_year then "Xennials"
  else if inRange 1980 1994 birth_year then "Millennials"
  else if inRange 1995 2012 birth_year then "Generation Z"
  else if inRange 2013 2025 birth_year then "Generation Alpha"
  else "Unknown"

/-- The spec's cohort table, in its declared order (spec §4.2 and Glossary):
(inclusive start, exclusive end, label). -/
def specGenerationTable : List (Int × Int × String) :=
  [ (1890, 1915, "Lost Generation"),
    (1901, 1913, "Interbellum Generation"),
    (1910, 1924, "Greatest Generation"),
    (1925, 1945, "Silent Generation"),
    (1946, 1964, "Baby Boomers"),
    (1965, 1979, "Generation X"),
    (1975, 1985, "Xennials"),
    (1980, 1994, "Millennials"),
    (1995, 2012, "Generation Z"),
    (2013, 2025, "Generation Alpha") ]

/-- First-match-wins lookup over an ordered interval table, with the
`"Unknown"` sentinel for a year contained in no interval. -/
def firstMatchingLabel (rs : List (Int × Int × String)) (y : Int) : String :=
  match rs with
  | [] => "Unknown"
  | (lo, hi, label) :: rest =>
      if inRange lo hi y then label else firstMatchingLabel rest y

/-! ## geocode.py — shard partitioning (`np.array_split`) -/

/-- Section sizes used by `np.array_split(ary, n)`: the first `K % n`
sections have `K / n + 1` elements, the remaining ones `K / n`. -/
def sectionSizes (K n : Nat) : List Nat :=
  (List.range n).map (fun i => K / n + if i < K % n then 1 else 0)

/-- Successive slicing of a list into segments of the given sizes; this is
`np.array_split`'s slicing at the cumulative division points. -/
def splitSizes {α : Type} : List Nat → List α → List (List α)
  | [], _ => []
  | s :: ss, l => l.take s :: splitSizes ss (l.drop s)

/-- Embedding of `np.array_split(df, n_cores)` as used by
`parallel_construct_municipal_area` (src/src/geocode.py): `n` contiguous
shards of near-equal size. -/
def array_split {α : Type} (l : List α) (n : Nat) : List (List α) :=
  splitSizes (sectionSizes l.length n) l

/-! ## ratios.py — `calc_create_ratios` -/

/-- The ordered index pairs generated by the nested loops of
`calc_create_ratios`: outer loop over `x1`, inner loop over `x2`,
skipping `x1 = x2`. -/
def ratioIdxs (n : Nat) : List (Nat × Nat) :=
  ((List.range n).map (fun x1 =>
    (List.range n).filterMap (fun x2 =>
      if x1 = x2 then none else some (x1, x2)))).flatten

/-- The ratio column names `f'{feature_names[x1]}_by_{feature_names[x2]}'`
in pair-generation order. -/
def ratioNames (feature_names : List String) : List String :=
  (ratioIdxs feature_names.length).map (fun p =>
    feature_names.getD p.1 "" ++ "_by_" ++ feature_names.getD p.2 "")

/-- Column `j` of the row-major matrix `X`, as materialized by
`pd.DataFrame(X, columns=feature_names)`. -/
def matrixCol {V : Type} [Inhabited V] (X : List (List V)) (j : Nat) : List V :=
  X.map (fun r => r.getD j default)

/-- `pd.DataFrame(X, columns=feature_names)` — the frame of the original
feature columns. -/
def ratioBaseFrame {V : Type} [Inhabited V] (X : List (List V))
    (feature_names : List String) : List (String × List V) :=
  (List.range feature_names.length).map
    (fun j => (feature_names.getD j "", matrixCol X j))

/-- Embedding of `calc_create_ratios` (src/src/ratios.py): build the frame
from `X`, then for each ordered pair `(x1, x2)` with `x1 ≠ x2` assign the
column `df.iloc[:, x1] / df.iloc[:, x2]` under the derived ratio name.
(The `isinstance(computation, int)` branch of the source is dead here:
`ratio_idxs` holds only tuples.)  Cell values are any type with a division,
standing for IEEE floats; a zero denominator is not special-cased. -/
def calc_create_ratios {V : Type} [Inhabited V] [Div V]
    (X : List (List V)) (feature_names : List String) : List (String × List V) :=
  ((ratioIdxs feature_names.length).zip (ratioNames feature_names)).foldl
    (fun df p => dfSetCol df p.2 (List.zipWith (· / ·) (dfIloc df p.1.1) (dfIloc df p.1.2)))
    (ratioBaseFrame X feature_names)

/-! ## aggregations.py — count / sum / mean aggregation-and-join -/

/-- A dataframe of rational-valued cells: column names plus row-major rows.
ℚ stands for the numeric (and key) values involved in grouping. -/
structure Frame where
  cols : List String
  rows : List (List Rat)
deriving DecidableEq, Repr

/-- The value of a row in the column at index `i` (`0` stands for a value
outside the row, unreachable under well-formed access). -/
def cellAt (r : List Rat) (i : Nat) : Rat := r.getD i 0

/-- `df.groupby(grouping_feature)[[grouped_feature]].op()` — one entry per
distinct key value, carrying `op` of the grouped column over that key's
group.  (pandas sorts the group keys; the left merge in
`make_*_aggregation` matches on key, so key order is irrelevant to it and
first-appearance order is used here.) -/
def groupbyAgg (df : Frame) (grouping grouped : String) (op : List Rat → Rat) :
    List (Rat × Rat) :=
  ((df.rows.map (fun r => cellAt r (df.cols.indexOf grouping))).dedup).map
    (fun k => (k, op ((df.rows.filter
        (fun r => cellAt r (df.cols.indexOf grouping) = k)).map
      (fun r => cellAt r (df.cols.indexOf grouped)))))

/-- Association lookup modelling the key match of the merge. -/
def aggLookup (k : Rat) : List (Rat × Rat) → Option Rat
  | [] => none
  | (k2, v) :: rest => if k2 = k then some v else aggLookup k rest

/-- `df.merge(agg, on=grouping_feature, how='left', suffixes=('', '_agg'))
.rename(columns={..: agg_feature_name})`: every row, in left order, gets
the aggregate matched on its key appended under the new name.  A key with
no match would be left missing (modelled by 0; unreachable here, since
every left key occurs in the aggregate table). -/
def mergeLeftRename (df : Frame) (grouping : String) (agg : List (Rat × Rat))
    (agg_feature_name : String) : Frame :=
  { cols := df.cols ++ [agg_feature_name],
    rows := df.rows.map (fun r =>
      r ++ [(aggLookup (cellAt r (df.cols.indexOf grouping)) agg).getD 0]) }

/-- `.nunique()` — the number of distinct values. -/
def nuniqueOp (l : List Rat) : Rat := l.dedup.length

/-- `.sum()`. -/
def sumOp (l : List Rat) : Rat := l.sum

/-- `.mean()` — sum over count. -/
def meanOp (l : List Rat) : Rat := l.sum / l.length

/-- Embedding of `make_count_aggregation` (src/aggregations.py). -/
def make_count_aggregation (df : Frame)
    (grouping_feature grouped_feature agg_feature_name : String) : Frame :=
  mergeLeftRename df grouping_feature
    (groupbyAgg df grouping_feature grouped_feature nuniqueOp) agg_feature_name

/-- Embedding of `make_sum_aggregation` (src/aggregations.py). -/
def make_sum_aggregation (df : Frame)
    (grouping_feature grouped_feature agg_feature_name : String) : Frame :=
  mergeLeftRename df grouping_feature
    (groupbyAgg df grouping_feature grouped_feature sumOp) agg_feature_name

/-- Embedding of `make_mean_aggregation` (src/aggregations.py). -/
def make_mean_aggregation (df : Frame)
    (grouping_feature grouped_feature agg_feature_name : String) : Frame :=
  mergeLeftRename df grouping_feature
    (groupbyAgg df grouping_feature grouped_feature meanOp) agg_feature_name

/-- A concrete frame used by witnesses. -/
def aggExample : Frame := ⟨["k", "v"], [[1, 10], [1, 20], [2, 30]]⟩

/-! ## geocode.py — zip lookup and municipal-area construction -/

/-- A pandas/CSV cell: a string, a number, or a missing value (None/NaN). -/
inductive Cell
  | cstr (s : String)
  | cnum (q : Rat)
  | cnone
deriving DecidableEq, Repr

/-- Python `str.title()`: uppercase the first letter of every alphabetic
run, lowercase the rest of the run.  The Boolean argument tracks whether
the previous character was alphabetic. -/
def pyTitleAux : List Char → Bool → List Char
  | [], _ => []
  | c :: cs, prevAlpha =>
      (if c.isAlpha then (if prevAlpha then c.toLower else c.toUpper) else c)
        :: pyTitleAux cs c.isAlpha

def pyTitle (s : String) : String := ⟨pyTitleAux s.data false⟩

/-- Python `str.upper()` (ASCII). -/
def pyUpper (s : String) : String := ⟨s.data.map Char.toUpper⟩

/-- Python `str.lstrip()`. -/
def pyLstrip (s : String) : String := ⟨s.data.dropWhile Char.isWhitespace⟩

/-- Python `str.rstrip()`. -/
def pyRstrip (s : String) : String :=
  ⟨(s.data.reverse.dropWhile Char.isWhitespace).reverse⟩

/-- Python `str(x)[:5]`. -/
def strTake5 (s : String) : String := ⟨s.data.take 5⟩

/-- `address['city'].title().lstrip().rstrip()`. -/
def normCity (s : String) : String := pyRstrip (pyLstrip (pyTitle s))

/-- `address['state'].upper().lstrip().rstrip()`. -/
def normState (s : String) : String := pyRstrip (pyLstrip (pyUpper s))

/-- The address dictionary handed to the lookup: city/state/zip plus the
originating source row (`address['row']`), whose column names and values
ride along for logging and for the final broadcast join. -/
structure Address where
  city : String
  state : String
  zip : String
  rowCols : List String
  row : List Cell
deriving DecidableEq, Repr

/-- A `SimpleZipcode` record as returned by the external `uszipcode`
service: the 12 attributes read by `construct_municipal_area`; a missing
value is `Cell.cnone`. -/
structure ZipRecord where
  zipcode : Cell
  major_city : Cell
  lat : Cell
  lng : Cell
  timezone : Cell
  radius_in_miles : Cell
  population : Cell
  population_density : Cell
  housing_units : Cell
  occupied_housing_units : Cell
  median_home_value : Cell
  median_household_income : Cell
deriving DecidableEq, Repr

/-- The opaque external lookup service.  `Except.error v` models a raised
`ValueError` carrying message `v`; `by_zipcode` returns `none` for a code
the service has no record for. -/
structure SearchEngine where
  by_city_and_state : String → String → Option Nat → Except String (List ZipRecord)
  by_zipcode : String → Except String (Option ZipRecord)

/-- What `get_location_demographics_from_dict` hands back: a list of
records (`by_city_state` mode, or the literal `[]` of the caught-error
path) or the single record-or-`None` of `by_zipcode` mode. -/
inductive LookupResult
  | many (rs : List ZipRecord)
  | one (r : Option ZipRecord)
deriving DecidableEq, Repr

/-- `len(simple_zipcodes)`; only ever evaluated on the list-shaped result
of city/state mode. -/
def lookupCount (r : LookupResult) : Nat :=
  match r with
  | .many rs => rs.length
  | .one _ => 0

/-- A dataframe of `Cell` values. -/
structure GeoFrame where
  cols : List String
  rows : List (List Cell)
deriving DecidableEq, Repr

/-- The run's append-only side-effect files (data rows only; each CSV also
receives a header line on its first write): `value_errors.csv`,
`unresolveable_addresses.csv` and `enriched_addresses.csv` (the latter as
the list of appended frames). -/
structure GeoLogs where
  value_errors : List (List Cell)
  unresolvable : List (List Cell)
  enriched : List GeoFrame
deriving DecidableEq, Repr

/-- Embedding of `get_location_demographics_from_dict`
(src/src/geocode.py): normalize the address fields in place, dispatch to
the engine by mode; a raised `ValueError` is caught, one row
`[zip, city, state, error] ++ source-row-values` is appended to the
`value_errors.csv` log, and the empty list is returned.  The (mutated)
address, the result and the logs are returned. -/
def get_location_demographics_from_dict (engine : SearchEngine)
    (address : Address) (result_limit : Option Nat) (by_city_state : Bool)
    (logs : GeoLogs) : Address × LookupResult × GeoLogs :=
  let address := { address with
    city := normCity address.city,
    state := normState address.state,
    zip := strTake5 address.zip }
  let call : Except String LookupResult :=
    if by_city_state then
      (engine.by_city_and_state address.city address.state result_limit).map .many
    else
      (engine.by_zipcode address.zip).map .one
  match call with
  | .error v =>
      (address, .many [],
        { logs with value_errors := logs.value_errors ++
            [[.cstr address.zip, .cstr address.city, .cstr address.state, .cstr v]
              ++ address.row] })
  | .ok r => (address, r, logs)

/-- The metric column names of `construct_municipal_area`. -/
def metrics : List String :=
  ["zipcode", "major_city", "lat", "lng", "timezone", "radius_in_miles",
   "population", "population_density", "housing_units",
   "occupied_housing_units", "median_home_value", "median_household_income"]

/-- The metric row read off one `SimpleZipcode` record. -/
def zipRecordMetricRow (z : ZipRecord) : List Cell :=
  [z.zipcode, z.major_city, z.lat, z.lng, z.timezone, z.radius_in_miles,
   z.population, z.population_density, z.housing_units,
   z.occupied_housing_units, z.median_home_value, z.median_household_income]

/-- `df.fillna(value=0)` on one cell. -/
def fillna0 (c : Cell) : Cell :=
  match c with
  | .cnone => .cnum 0
  | c => c

/-- Truncation toward zero, as numpy float-to-int casting does. -/
def ratTrunc (q : Rat) : Int := if 0 ≤ q then ⌊q⌋ else ⌈q⌉

/-- `.astype(int)` on one cell (only ever applied to numeric cells). -/
def castIntCell (c : Cell) : Cell :=
  match c with
  | .cnum q => .cnum (ratTrunc q)
  | c => c

def listModify {α : Type} (g : α → α) : Nat → List α → List α
  | _, [] => []
  | 0, a :: as => g a :: as
  | n + 1, a :: as => a :: listModify g n as

/-- `df[name] = df[name].map(g)`-style per-column update. -/
def frameMapCol (f : GeoFrame) (name : String) (g : Cell → Cell) : GeoFrame :=
  { f with rows := f.rows.map (fun r => listModify g (f.cols.indexOf name) r) }

/-- The seven columns coerced by the `astype(int)` assignments of
`construct_municipal_area`. -/
def intMetricCols : List String :=
  ["radius_in_miles", "population", "population_density", "housing_units",
   "occupied_housing_units", "median_home_value", "median_household_income"]

/-- `pd.concat(frames, ignore_index=True)` — pandas raises
`ValueError: No objects to concatenate` on an empty list of frames. -/
def pdConcatRows (fs : List GeoFrame) : Except String GeoFrame :=
  match fs with
  | [] => .error "No objects to concatenate"
  | f :: rest => .ok ⟨f.cols, ((f :: rest).map GeoFrame.rows).flatten⟩

/-- `pd.concat([a, b], axis=1)` for two frames of identical row count. -/
def pdConcatCols (a b : GeoFrame) : GeoFrame :=
  ⟨a.cols ++ b.cols, List.zipWith (· ++ ·) a.rows b.rows⟩

/-- The message of the `AttributeError` raised when the `None` (or the
plain list) standing where a record was expected is dereferenced. -/
def attributeErrorMsg : String := "NoneType object has no attribute zipcode"

/-- Embedding of `construct_municipal_area` (src/src/geocode.py).  The
first component is the function's outcome: `Except.error` models an
uncaught exception propagating to the caller. -/
def construct_municipal_area (engine : SearchEngine) (address0 : Address)
    (result_limit : Option Nat) (by_city_state : Bool) (logs0 : GeoLogs) :
    Except String GeoFrame × GeoLogs :=
  let res := get_location_demographics_from_dict engine address0 result_limit
    by_city_state logs0
  let address := res.1
  let simple_zipcodes := res.2.1
  let logs := res.2.2
  if by_city_state ∧ lookupCount simple_zipcodes = 0 then
    -- `return pd.DataFrame()`: a frame with no columns at all
    (.ok ⟨[], []⟩, logs)
  else
    -- the try/except AttributeError block: dereferencing the `None` of an
    -- unknown postal code — or the plain `[]` returned by the caught
    -- ValueError path in postal mode — raises AttributeError, which is
    -- caught, logged to unresolveable_addresses.csv, and replaced by the
    -- blank metric-columned frame
    let step : GeoFrame × GeoLogs :=
      match by_city_state, simple_zipcodes with
      | true, .many rs => (⟨metrics, rs.map zipRecordMetricRow⟩, logs)
      | false, .one (some z) => (⟨metrics, [zipRecordMetricRow z]⟩, logs)
      | _, _ =>
          (⟨metrics, []⟩,
            { logs with unresolvable := logs.unresolvable ++
                [[.cstr address.zip, .cstr address.city, .cstr address.state,
                  .cstr attributeErrorMsg]] })
    let df := step.1
    let logs := step.2
    let df : GeoFrame := ⟨df.cols, df.rows.map (fun r => r.map fillna0)⟩
    let df := intMetricCols.foldl (fun d c => frameMapCol d c castIntCell) df
    -- row = address['row'].to_frame().T; normalized_row = pd.concat([row] * len(df))
    let rowFrame : GeoFrame := ⟨address.rowCols, [address.row]⟩
    match pdConcatRows (List.replicate df.rows.length rowFrame) with
    | .error e => (.error e, logs)
    | .ok normalized_row =>
        let out := pdConcatCols df normalized_row
        (.ok out, { logs with enriched := logs.enriched ++ [out] })

/-- An engine on which city/state queries resolve to nothing and postal
codes have no record. -/
def noneEngine : SearchEngine :=
  ⟨fun _ _ _ => .ok [], fun _ => .ok none⟩

/-- An engine whose calls raise `ValueError`. -/
def failingEngine : SearchEngine :=
  ⟨fun _ _ _ => .error "value error", fun _ => .error "value error"⟩

/-- A concrete address query used in the geocode theorems. -/
def addrExample : Address :=
  ⟨"Anytown", "ny", "00000", ["Zip", "City", "State"],
    [.cstr "00000", .cstr "Anytown", .cstr "ny"]⟩

/-- A concrete city/state address with un-normalized fields. -/
def addrCityState : Address :=
  ⟨"new york", " ny", "10001-1234", ["colA"], [.cstr "x"]⟩

/-! ## timestamps.py — `process_timestamps` -/

/-- Column dtypes relevant to `process_timestamps`. -/
inductive DType
  | dtDatetime
  | dtObject
  | dtBool
deriving DecidableEq, Repr

/-- A pandas timestamp, carrying the attributes the source reads: the
`isocalendar()` fields, the `.dt` calendar/time accessors, and the date as
an absolute day number (`epochDay`, backing `.dt.date` and the day
arithmetic of the holiday windows). -/
structure Timestamp where
  year : Int
  month : Nat
  day : Nat
  hour : Nat
  minute : Nat
  second : Nat
  isoYear : Int
  isoWeek : Nat
  isoWeekday : Nat
  epochDay : Int
deriving DecidableEq, Repr

/-- A pandas scalar value as compared by `isin`: equality is type-tagged —
a `Timestamp` (`vts`) never equals a plain integer (`vint`), and a
`datetime.date` (`vdate`) never equals a `Timestamp`, mirroring pandas'
hash-based membership tests across mismatched types. -/
inductive PdVal
  | vts (t : Timestamp)
  | vdate (d : Int)
  | vint (n : Int)
  | vstr (s : String)
  | vbool (b : Bool)
deriving DecidableEq, Repr

/-- A column: a dtype tag plus its values. -/
structure PdCol where
  dtype : DType
  vals : List PdVal
deriving DecidableEq, Repr

/-- `.isin(values)` on one element. -/
def pdIsin (v : PdVal) (vs : List PdVal) : Bool := vs.contains v

/-- Accessors of one value of a datetime column (such a column holds only
`vts` values; the 0 defaults are unreachable there). -/
def tsIsoWeek : PdVal → Nat
  | .vts t => t.isoWeek
  | _ => 0

def tsIsoWeekday : PdVal → Nat
  | .vts t => t.isoWeekday
  | _ => 0

def tsYear : PdVal → Int
  | .vts t => t.year
  | _ => 0

def tsMonth : PdVal → Nat
  | .vts t => t.month
  | _ => 0

def tsDay : PdVal → Nat
  | .vts t => t.day
  | _ => 0

def tsHour : PdVal → Nat
  | .vts t => t.hour
  | _ => 0

def tsMinute : PdVal → Nat
  | .vts t => t.minute
  | _ => 0

def tsSecond : PdVal → Nat
  | .vts t => t.second
  | _ => 0

def tsEpochDay : PdVal → Int
  | .vts t => t.epochDay
  | _ => 0

/-- `.dt.date` on one value: a `datetime.date` — a value of a different
type than a `Timestamp`. -/
def pdDate : PdVal → PdVal
  | .vts t => .vdate t.epochDay
  | v => v

/-- The tuples `morning`, `afternoon`, `evening`, `night` of the source:
plain Python ints. -/
def morningInts : List PdVal :=
  [.vint 6, .vint 7, .vint 8, .vint 9, .vint 10, .vint 11]

def afternoonInts : List PdVal :=
  [.vint 12, .vint 13, .vint 14, .vint 15, .vint 16, .vint 17]

def eveningInts : List PdVal :=
  [.vint 18, .vint 19, .vint 20, .vint 21, .vint 22, .vint 23]

def nightInts : List PdVal :=
  [.vint 0, .vint 1, .vint 2, .vint 3, .vint 4, .vint 5]

/-- A midnight `Timestamp` on absolute day `d`, as produced by
`pd.date_range`; only its value identity matters for the membership tests
below, so the calendar fields are left at placeholder values. -/
def dayTs (d : Int) : Timestamp := ⟨0, 1, 1, 0, 0, 0, 0, 1, 1, d⟩

/-- `pd.date_range(start=h - 7 days, end=h + 7 days)`: one midnight
Timestamp per day, both ends inclusive (15 days). -/
def dateRangeWindow (h : Int) : List PdVal :=
  (List.range 15).map (fun k => .vts (dayTs (h - 7 + k)))

/-- The `holiday_weeks` index: the holidays themselves, then each
holiday's window appended in loop order. -/
def holidayWeeks (holidays : List Int) : List PdVal :=
  holidays.map (fun h => .vts (dayTs h)) ++ (holidays.map dateRangeWindow).flatten

/-- `df[col].min()` at day granularity (the holiday calendar is
date-valued). -/
def listMinD : List Int → Int
  | [] => 0
  | a :: as => as.foldl min a

/-- `df[col].max()` at day granularity. -/
def listMaxD : List Int → Int
  | [] => 0
  | a :: as => as.foldl max a

/-- `df[col].dt.date.isin(holiday_weeks)` — `datetime.date` values tested
against an index of Timestamps. -/
def nearHolidayFlags (holidays : List Int) (vals : List PdVal) : List PdVal :=
  vals.map (fun v => .vbool (pdIsin (pdDate v) (holidayWeeks holidays)))

/-- The 14 feature-name suffixes, in assignment order. -/
def featureSuffixes : List String :=
  ["_week_num", "_weekday", "_year", "_month", "_day", "_week_of_month",
   "_hour", "_minute", "_second", "_during_morning", "_during_afternoon",
   "_during_evening", "_during_night", "_near_holiday"]

/-- The 14 derived columns for timestamp column `name`, in the assignment
order of the source.  `cal start end` stands for
`USFederalHolidayCalendar().holidays(start, end)`, returning the federal
holidays in range as days.  The numeric features are `astype(str)` object
columns; the flags are Boolean columns. -/
def featureCols (cal : Int → Int → List Int) (name : String)
    (vals : List PdVal) : List (String × PdCol) :=
  [ (name ++ "_week_num",
      ⟨.dtObject, vals.map (fun v => .vstr (toString (tsIsoWeek v)))⟩),
    (name ++ "_weekday",
      ⟨.dtObject, vals.map (fun v => .vstr (toString (tsIsoWeekday v)))⟩),
    (name ++ "_year",
      ⟨.dtObject, vals.map (fun v => .vstr (toString (tsYear v)))⟩),
    (name ++ "_month",
      ⟨.dtObject, vals.map (fun v => .vstr (toString (tsMonth v)))⟩),
    (name ++ "_day",
      ⟨.dtObject, vals.map (fun v => .vstr (toString (tsDay v)))⟩),
    (name ++ "_week_of_month",
      ⟨.dtObject, vals.map (fun v => .vstr (toString (tsDay v / 7 + 1)))⟩),
    (name ++ "_hour",
      ⟨.dtObject, vals.map (fun v => .vstr (toString (tsHour v)))⟩),
    (name ++ "_minute",
      ⟨.dtObject, vals.map (fun v => .vstr (toString (tsMinute v)))⟩),
    (name ++ "_second",
      ⟨.dtObject, vals.map (fun v => .vstr (toString (tsSecond v)))⟩),
    (name ++ "_during_morning",
      ⟨.dtBool, vals.map (fun v => .vbool (pdIsin v morningInts))⟩),
    (name ++ "_during_afternoon",
      ⟨.dtBool, vals.map (fun v => .vbool (pdIsin v afternoonInts))⟩),
    (name ++ "_during_evening",
      ⟨.dtBool, vals.map (fun v => .vbool (pdIsin v eveningInts))⟩),
    (name ++ "_during_night",
      ⟨.dtBool, vals.map (fun v => .vbool (pdIsin v nightInts))⟩),
    (name ++ "_near_holiday",
      ⟨.dtBool, nearHolidayFlags
        (cal (listMinD (vals.map tsEpochDay)) (listMaxD (vals.map tsEpochDay)))
        vals⟩) ]

/-- One iteration of the column loop of `process_timestamps`: the 14
assignments `df[f'{col}_...'] = ...` for timestamp column `name`. -/
def addTimestampFeatures (cal : Int → Int → List Int)
    (df : List (String × PdCol)) (name : String) : List (String × PdCol) :=
  (featureCols cal name ((dfGet df name).getD ⟨.dtDatetime, []⟩).vals).foldl
    (fun d p => dfSetCol d p.1 p.2) df

/-- Embedding of `process_timestamps` (src/timestamps.py).  The first
component is the state of the caller's dataframe object after the call —
the column assignments mutate it in place.  The second component is the
function's return value, `select_dtypes(exclude=np.datetime64)` of the
mutated object: a fresh frame without the timestamp columns. -/
def process_timestamps (cal : Int → Int → List Int)
    (df : List (String × PdCol)) :
    List (String × PdCol) × List (String × PdCol) :=
  let dtCols := (df.filter (fun p => decide (p.2.dtype = DType.dtDatetime))).map Prod.fst
  let df1 := dtCols.foldl (addTimestampFeatures cal) df
  (df1, df1.filter (fun p => decide (¬ p.2.dtype = DType.dtDatetime)))

/-- 2021-06-15 14:30:00 (ISO week 24, Tuesday, day 18793 since
1970-01-01). -/
def tsHour14 : Timestamp := ⟨2021, 6, 15, 14, 30, 0, 2021, 24, 2, 18793⟩

/-- A one-column table holding the single hour-14 timestamp. -/
def dfHour14 : List (String × PdCol) :=
  [("ts", ⟨.dtDatetime, [.vts tsHour14]⟩)]

/-- A calendar with no holidays in range. -/
def noHolidays : Int → Int → List Int := fun _ _ => []

/-- 2022-06-27 (day 19170), exactly 7 days before the Independence Day
holiday 2022-07-04 (day 19177). -/
def tsJun27 : Timestamp := ⟨2022, 6, 27, 10, 0, 0, 2022, 26, 1, 19170⟩

/-- 2022-06-26 (day 19169), exactly 8 days before the holiday. -/
def tsJun26 : Timestamp := ⟨2022, 6, 26, 10, 0, 0, 2022, 25, 7, 19169⟩

/-- 2022-07-05 (day 19178), the day after the holiday; it puts the
holiday inside the column's `[min, max]` span. -/
def tsJul5 : Timestamp := ⟨2022, 7, 5, 10, 0, 0, 2022, 27, 2, 19178⟩

/-- The values of a timestamp column spanning [2022-06-26, 2022-07-05]:
rows 7 and 8 days before the 2022-07-04 holiday and one the day after. -/
def julyVals : List PdVal := [.vts tsJun27, .vts tsJun26, .vts tsJul5]

/-- A three-row table whose `[min, max]` span contains the holiday. -/
def dfJuly : List (String × PdCol) :=
  [("ts", ⟨.dtDatetime, julyVals⟩)]

/-- A calendar whose only holiday is Independence Day 2022 (day 19177),
honoring the `holidays(start, end)` contract: the holiday is returned
exactly when it lies within `[start, end]`. -/
def julyFourthCal : Int → Int → List Int :=
  fun a b => if a ≤ 19177 ∧ 19177 ≤ b then [19177] else []

/-- The spec's holiday-proximity predicate: a date is near a holiday iff
it falls within the inclusive 7-day window before or after some federal
holiday in range. -/
def specNearHoliday (holidays : List Int) (d : Int) : Bool :=
  holidays.any (fun h => decide (h - 7 ≤ d ∧ d ≤ h + 7))

/-! # Theorems -/

theorem sectionSizes_length (K n : Nat) : (sectionSizes K n).length = n := by
  simp [sectionSizes]

theorem sum_map_const_add {α : Type} (l : List α) (c : Nat) (f : α → Nat) :
    (l.map (fun x => c + f x)).sum = l.length * c + (l.map f).sum := by
  induction l with
  | nil => simp
  | cons a l ih => simp [ih]; ring

theorem sum_indicator_range (m n : Nat) :
    ((List.range n).map (fun i => if i < m then 1 else 0)).sum = min m n := by
  induction n with
  | zero => simp
  | succ k ih =>
      rw [List.range_succ, List.map_append, List.sum_append]
      rw [ih]
      by_cases h : k < m <;> simp [h] <;> omega

theorem sectionSizes_sum (K n : Nat) (hn : 0 < n) : (sectionSizes K n).sum = K := by
  have hmod : K % n < n := Nat.mod_lt _ hn
  have hdm : n * (K / n) + K % n = K := Nat.div_add_mod K n
  unfold sectionSizes
  rw [sum_map_const_add, List.length_range, sum_indicator_range,
    Nat.min_eq_left (le_of_lt hmod)]
  exact hdm

theorem splitSizes_length {α : Type} (ss : List Nat) (l : List α) :
    (splitSizes ss l).length = ss.length := by
  induction ss generalizing l with
  | nil => rfl
  | cons s ss ih => simp [splitSizes, ih]

theorem splitSizes_flatten {α : Type} (ss : List Nat) (l : List α)
    (h : ss.sum = l.length) : (splitSizes ss l).flatten = l := by
  induction ss generalizing l with
  | nil =>
      simp only [List.sum_nil] at h
      simp [splitSizes, List.length_eq_zero.mp h.symm]
  | cons s ss ih =>
      simp only [List.sum_cons] at h
      have hdrop : ss.sum = (l.drop s).length := by
        simp only [List.length_drop]; omega
      simp [splitSizes, ih _ hdrop]

theorem splitSizes_map_length {α : Type} (ss : List Nat) (l : List α)
    (h : ss.sum ≤ l.length) : (splitSizes ss l).map List.length = ss := by
  induction ss generalizing l with
  | nil => rfl
  | cons s ss ih =>
      simp only [List.sum_cons] at h
      simp only [splitSizes, List.map_cons]
      rw [List.length_take, Nat.min_eq_left (by omega), ih]
      simp only [List.length_drop]; omega

theorem mem_sectionSizes (K n a : Nat) (h : a ∈ sectionSizes K n) :
    a = K / n ∨ a = K / n + 1 := by
  obtain ⟨i, hi, rfl⟩ := List.mem_map.mp h
  by_cases hc : i < K % n
  · right; simp [hc]
  · left; simp [hc]

/-- C3: for every integer birth year, `birth_generation` agrees with
first-match-wins lookup over the spec's ordered cohort table, returning
the sentinel `"Unknown"` outside every interval; in particular 1920 maps
to `"Greatest Generation"`, 1978 to `"Generation X"` and 2030 to
`"Unknown"`. -/
theorem birth_generation_spec :
    (∀ y : Int, birth_generation y = firstMatchingLabel specGenerationTable y) ∧
    birth_generation 1920 = "Greatest Generation" ∧
    birth_generation 1978 = "Generation X" ∧
    birth_generation 2030 = "Unknown" :=
  ⟨fun _ => rfl, by decide, by decide, by decide⟩

/-- C9: for every input table and positive shard count, the driver's
partition (`np.array_split`) yields `n` contiguous shards, in order, whose
concatenation is the input, whose sizes sum to the input size and differ
pairwise by at most 1. -/
theorem array_split_spec {α : Type} (l : List α) (n : Nat) (hn : 0 < n) :
    (array_split l n).length = n ∧
    (array_split l n).flatten = l ∧
    ((array_split l n).map List.length).sum = l.length ∧
    ∀ s1 ∈ array_split l n, ∀ s2 ∈ array_split l n,
      s1.length ≤ s2.length + 1 := by
  have hsum := sectionSizes_sum l.length n hn
  have hlen : (array_split l n).map List.length = sectionSizes l.length n :=
    splitSizes_map_length _ _ (le_of_eq hsum)
  refine ⟨?_, ?_, ?_, ?_⟩
  · rw [array_split, splitSizes_length, sectionSizes_length]
  · exact splitSizes_flatten _ _ hsum
  · rw [hlen, hsum]
  · intro s1 h1 s2 h2
    have m1 : s1.length ∈ sectionSizes l.length n :=
      hlen ▸ List.mem_map_of_mem List.length h1
    have m2 : s2.length ∈ sectionSizes l.length n :=
      hlen ▸ List.mem_map_of_mem List.length h2
    rcases mem_sectionSizes _ _ _ m1 with e1 | e1 <;>
      rcases mem_sectionSizes _ _ _ m2 with e2 | e2 <;> omega

theorem any_fst_eq_iff {α : Type} (t : List (String × α)) (n : String) :
    (t.any (fun p => p.1 = n)) = true ↔ n ∈ t.map Prod.fst := by
  rw [List.any_eq_true]
  constructor
  · rintro ⟨p, hp, he⟩
    exact List.mem_map.mpr ⟨p, hp, by simpa using he⟩
  · intro h
    obtain ⟨p, hp, he⟩ := List.mem_map.mp h
    exact ⟨p, hp, by simpa using he⟩

theorem dfSetCol_of_not_mem {α : Type} (t : List (String × α)) (n : String) (v : α)
    (h : n ∉ t.map Prod.fst) : dfSetCol t n v = t ++ [(n, v)] := by
  unfold dfSetCol
  have hb : ¬ (t.any (fun p => p.1 = n) = true) :=
    fun hc => h ((any_fst_eq_iff t n).mp hc)
  simp [hb]

theorem map_getD_range {α : Type} (l : List α) (d : α) :
    (List.range l.length).map (fun j => l.getD j d) = l := by
  induction l with
  | nil => rfl
  | cons a t ih =>
      rw [List.length_cons, List.range_succ_eq_map, List.map_cons, List.map_map]
      have hmap : List.map ((fun j => (a :: t).getD j d) ∘ Nat.succ) (List.range t.length)
          = List.map (fun j => t.getD j d) (List.range t.length) :=
        List.map_congr_left (fun j _ => rfl)
      rw [hmap, ih]
      rfl

theorem map_fst_ratioBaseFrame {V : Type} [Inhabited V] (X : List (List V))
    (names : List String) : (ratioBaseFrame X names).map Prod.fst = names := by
  unfold ratioBaseFrame
  rw [List.map_map]
  simpa [Function.comp] using map_getD_range names ""

theorem ratioBaseFrame_length {V : Type} [Inhabited V] (X : List (List V))
    (names : List String) : (ratioBaseFrame X names).length = names.length := by
  simp [ratioBaseFrame]

theorem dfIloc_append_left {V : Type} (t1 t2 : List (String × List V)) (j : Nat)
    (h : j < t1.length) : dfIloc (t1 ++ t2) j = dfIloc t1 j := by
  unfold dfIloc
  rw [List.getElem?_append_left h]

theorem dfIloc_ratioBaseFrame {V : Type} [Inhabited V] (X : List (List V))
    (names : List String) (j : Nat) (h : j < names.length) :
    dfIloc (ratioBaseFrame X names) j = matrixCol X j := by
  unfold dfIloc ratioBaseFrame
  rw [List.getElem?_map, List.getElem?_range h]
  rfl

theorem mem_ratioIdxs (n : Nat) (p : Nat × Nat) (h : p ∈ ratioIdxs n) :
    p.1 < n ∧ p.2 < n := by
  simp only [ratioIdxs, List.mem_flatten, List.mem_map] at h
  obtain ⟨l, ⟨x1, hx1, rfl⟩, hp⟩ := h
  rw [List.mem_filterMap] at hp
  obtain ⟨x2, hx2, he⟩ := hp
  rw [List.mem_range] at hx1 hx2
  by_cases hc : x1 = x2
  · simp [hc] at he
  · rw [if_neg hc, Option.some_inj] at he
    rw [← he]
    exact ⟨hx1, hx2⟩

theorem zip_map_self {α β : Type} (l : List α) (g : α → β) :
    l.zip (l.map g) = l.map (fun a => (a, g a)) := by
  induction l with
  | nil => rfl
  | cons a t ih => simp [ih]

theorem calc_fold_aux {V : Type} [Inhabited V] [Div V]
    (X : List (List V)) (names : List String)
    (items : List ((Nat × Nat) × String)) (rest : List (String × List V))
    (hidx : ∀ it ∈ items, it.1.1 < names.length ∧ it.1.2 < names.length)
    (hfresh : ∀ it ∈ items, it.2 ∉ (ratioBaseFrame X names ++ rest).map Prod.fst)
    (hnd : (items.map Prod.snd).Nodup) :
    items.foldl
      (fun df p => dfSetCol df p.2
        (List.zipWith (· / ·) (dfIloc df p.1.1) (dfIloc df p.1.2)))
      (ratioBaseFrame X names ++ rest)
    = (ratioBaseFrame X names ++ rest) ++ items.map (fun it =>
        (it.2, List.zipWith (· / ·) (matrixCol X it.1.1) (matrixCol X it.1.2))) := by
  induction items generalizing rest with
  | nil => simp
  | cons it tl ih =>
      have hi := hidx it (List.mem_cons_self it tl)
      have hf := hfresh it (List.mem_cons_self it tl)
      have h1 : dfIloc (ratioBaseFrame X names ++ rest) it.1.1 = matrixCol X it.1.1 := by
        rw [dfIloc_append_left _ _ _ (by rw [ratioBaseFrame_length]; exact hi.1),
          dfIloc_ratioBaseFrame _ _ _ hi.1]
      have h2 : dfIloc (ratioBaseFrame X names ++ rest) it.1.2 = matrixCol X it.1.2 := by
        rw [dfIloc_append_left _ _ _ (by rw [ratioBaseFrame_length]; exact hi.2),
          dfIloc_ratioBaseFrame _ _ _ hi.2]
      simp only [List.foldl_cons]
      rw [h1, h2, dfSetCol_of_not_mem _ _ _ hf, List.append_assoc (ratioBaseFrame X names)]
      rw [ih (rest ++ [(it.2, List.zipWith (· / ·) (matrixCol X it.1.1) (matrixCol X it.1.2))])
          (fun a ha => hidx a (List.mem_cons_of_mem _ ha))
          ?_ (List.nodup_cons.mp hnd).2]
      · simp [List.append_assoc]
      · intro a ha hmem
        rw [← List.append_assoc, List.map_append] at hmem
        rcases List.mem_append.mp hmem with hmem | hmem
        · exact hfresh a (List.mem_cons_of_mem _ ha) hmem
        · have : a.2 = it.2 := by simpa using hmem
          exact (List.nodup_cons.mp hnd).1 (this ▸ List.mem_map_of_mem Prod.snd ha)

/-- C6 (amended): provided the feature names together with the derived
ratio names are pairwise distinct, `calc_create_ratios` returns the
original feature columns followed by exactly the N×(N−1) ratio columns,
named `{name_x1}_by_{name_x2}` with value `column_x1 / column_x2`, in the
nested-loop pair order. -/
theorem calc_create_ratios_spec {V : Type} [Inhabited V] [Div V]
    (X : List (List V)) (names : List String)
    (hnodup : (names ++ ratioNames names).Nodup) :
    calc_create_ratios X names =
      ratioBaseFrame X names ++ (ratioIdxs names.length).map (fun p =>
        (names.getD p.1 "" ++ "_by_" ++ names.getD p.2 "",
         List.zipWith (· / ·) (matrixCol X p.1) (matrixCol X p.2))) := by
  obtain ⟨hnd1, hnd2, hdisj⟩ := List.nodup_append.mp hnodup
  have hzip : (ratioIdxs names.length).zip (ratioNames names)
      = (ratioIdxs names.length).map
          (fun p => (p, names.getD p.1 "" ++ "_by_" ++ names.getD p.2 "")) := by
    unfold ratioNames
    rw [zip_map_self]
  unfold calc_create_ratios
  rw [hzip]
  rw [show ratioBaseFrame X names = ratioBaseFrame X names ++ [] from (List.append_nil _).symm]
  rw [calc_fold_aux X names _ [] ?hidx ?hfresh ?hnd]
  · rw [List.map_map]
    simp [List.append_nil]
  case hidx =>
    intro it hit
    obtain ⟨p, hp, rfl⟩ := List.mem_map.mp hit
    exact mem_ratioIdxs _ _ hp
  case hfresh =>
    intro it hit
    rw [List.append_nil, map_fst_ratioBaseFrame]
    obtain ⟨p, hp, rfl⟩ := List.mem_map.mp hit
    intro hmem
    exact hdisj hmem (by
      unfold ratioNames
      exact List.mem_map_of_mem _ hp)
  case hnd =>
    have : ((ratioIdxs names.length).map
        (fun p => (p, names.getD p.1 "" ++ "_by_" ++ names.getD p.2 ""))).map Prod.snd
        = ratioNames names := by
      rw [List.map_map]
      unfold ratioNames
      rfl
    rw [this]
    exact hnd2

theorem aggLookup_map_pair (ks : List Rat) (f : Rat → Rat) (k : Rat)
    (hk : k ∈ ks) :
    aggLookup k (ks.map (fun k2 => (k2, f k2))) = some (f k) := by
  induction ks with
  | nil => cases hk
  | cons a rest ih =>
      rcases List.mem_cons.mp hk with rfl | hmem
      · simp [aggLookup]
      · by_cases hc : a = k
        · subst hc; simp [aggLookup]
        · simp only [List.map_cons, aggLookup, if_neg hc]
          exact ih hmem

theorem mergeLeft_groupby (df : Frame) (grouping grouped out : String)
    (op : List Rat → Rat) :
    (mergeLeftRename df grouping (groupbyAgg df grouping grouped op) out).cols
      = df.cols ++ [out] ∧
    (mergeLeftRename df grouping (groupbyAgg df grouping grouped op) out).rows.length
      = df.rows.length ∧
    ∀ (i : Nat) (r : List Rat), df.rows[i]? = some r →
      (mergeLeftRename df grouping (groupbyAgg df grouping grouped op) out).rows[i]?
        = some (r ++ [op ((df.rows.filter (fun r2 =>
            cellAt r2 (df.cols.indexOf grouping)
              = cellAt r (df.cols.indexOf grouping))).map
          (fun r2 => cellAt r2 (df.cols.indexOf grouped)))]) := by
  refine ⟨rfl, by simp [mergeLeftRename], ?_⟩
  intro i r hr
  have hmem : r ∈ df.rows := List.getElem?_mem hr
  have hkey : cellAt r (df.cols.indexOf grouping) ∈
      (df.rows.map (fun r2 => cellAt r2 (df.cols.indexOf grouping))).dedup :=
    List.mem_dedup.mpr (List.mem_map_of_mem _ hmem)
  show (df.rows.map _)[i]? = _
  rw [List.getElem?_map, hr, Option.map_some']
  rw [show groupbyAgg df grouping grouped op
      = ((df.rows.map (fun r2 => cellAt r2 (df.cols.indexOf grouping))).dedup).map
          (fun k => (k, op ((df.rows.filter
              (fun r2 => cellAt r2 (df.cols.indexOf grouping) = k)).map
            (fun r2 => cellAt r2 (df.cols.indexOf grouped))))) from rfl]
  rw [aggLookup_map_pair _ _ _ hkey]
  rfl

/-- C7: for each of the three aggregation builders (count-distinct, sum,
mean), the result keeps the original columns extended by exactly one new
column named `agg_feature_name`, keeps the row count and row order, and
every row's new value is the operation applied to the grouped field over
all rows of the original table sharing that row's grouping-key value. -/
theorem make_aggregation_spec (df : Frame) (grouping grouped out : String)
    (mk : Frame → String → String → String → Frame) (op : List Rat → Rat)
    (hmk : (mk, op) ∈ [(make_count_aggregation, nuniqueOp),
      (make_sum_aggregation, sumOp), (make_mean_aggregation, meanOp)])
    (hg : grouping ∈ df.cols) (hd : grouped ∈ df.cols) :
    (mk df grouping grouped out).cols = df.cols ++ [out] ∧
    (mk df grouping grouped out).rows.length = df.rows.length ∧
    ∀ (i : Nat) (r : List Rat), df.rows[i]? = some r →
      (mk df grouping grouped out).rows[i]?
        = some (r ++ [op ((df.rows.filter (fun r2 =>
            cellAt r2 (df.cols.indexOf grouping)
              = cellAt r (df.cols.indexOf grouping))).map
          (fun r2 => cellAt r2 (df.cols.indexOf grouped)))]) := by
  simp only [List.mem_cons, List.not_mem_nil, or_false] at hmk
  rcases hmk with he | he | he <;>
    (rw [Prod.mk.injEq] at he; obtain ⟨rfl, rfl⟩ := he;
      exact mergeLeft_groupby df grouping grouped out _)

/-- Witness for `make_aggregation_spec`: sum aggregation on a 3-row frame. -/
theorem make_aggregation_spec_witness :
    ("k" ∈ aggExample.cols) ∧ ("v" ∈ aggExample.cols) ∧
    (make_sum_aggregation aggExample "k" "v" "v_sum").cols
      = aggExample.cols ++ ["v_sum"] ∧
    (make_sum_aggregation aggExample "k" "v" "v_sum").rows.length
      = aggExample.rows.length :=
  ⟨by decide, by decide,
    (make_aggregation_spec aggExample "k" "v" "v_sum" make_sum_aggregation sumOp
      (List.mem_cons_of_mem _ (List.mem_cons_self _ _)) (by decide) (by decide)).1,
    (make_aggregation_spec aggExample "k" "v" "v_sum" make_sum_aggregation sumOp
      (List.mem_cons_of_mem _ (List.mem_cons_self _ _)) (by decide) (by decide)).2.1⟩

/-- C6 counterexample: with feature names `["a", "b", "a_by_b"]` the
derived ratio name `"a_by_b"` collides with an original column; pandas
column assignment overwrites that column in place, so the output columns
are not the 3 original feature columns followed by the 6 ratio columns. -/
theorem calc_create_ratios_counterexample :
    (calc_create_ratios [[(1 : ℚ), 2, 5]] ["a", "b", "a_by_b"]).map Prod.fst
      ≠ ["a", "b", "a_by_b"] ++ ratioNames ["a", "b", "a_by_b"] := by
  decide

/-- Witness for `calc_create_ratios_spec` with two features over ℚ. -/
theorem calc_create_ratios_spec_witness :
    ((["a", "b"] ++ ratioNames ["a", "b"]).Nodup) ∧
    calc_create_ratios [[(1 : ℚ), 2]] ["a", "b"]
      = ratioBaseFrame [[(1 : ℚ), 2]] ["a", "b"]
        ++ (ratioIdxs (["a", "b"] : List String).length).map (fun p =>
            ((["a", "b"] : List String).getD p.1 "" ++ "_by_"
                ++ (["a", "b"] : List String).getD p.2 "",
             List.zipWith (· / ·) (matrixCol [[(1 : ℚ), 2]] p.1)
               (matrixCol [[(1 : ℚ), 2]] p.2))) :=
  ⟨by decide, calc_create_ratios_spec [[(1 : ℚ), 2]] ["a", "b"] (by decide)⟩

/-- Witness for `array_split_spec` at a 5-row table split into 2 shards. -/
theorem array_split_spec_witness :
    (0 < 2) ∧
    (array_split [10, 20, 30, 40, 50] 2).length = 2 ∧
    (array_split [10, 20, 30, 40, 50] 2).flatten = [10, 20, 30, 40, 50] :=
  ⟨by decide, (array_split_spec [10, 20, 30, 40, 50] 2 (by decide)).1,
    (array_split_spec [10, 20, 30, 40, 50] 2 (by decide)).2.1⟩

/-- C4: whenever the lookup service raises on a city/state query, the
client catches the `ValueError`, returns the empty result sequence, and
appends exactly one row — the normalized query fields, the failure reason
and the source-row values — to the lookup-failure log. -/
theorem get_location_city_state_value_error (engine : SearchEngine)
    (address : Address) (result_limit : Option Nat) (logs : GeoLogs) (v : String)
    (h : engine.by_city_and_state (normCity address.city) (normState address.state)
      result_limit = Except.error v) :
    get_location_demographics_from_dict engine address result_limit true logs
      = ({ address with
            city := normCity address.city,
            state := normState address.state,
            zip := strTake5 address.zip },
         LookupResult.many [],
         { logs with value_errors := logs.value_errors ++
            [[.cstr (strTake5 address.zip), .cstr (normCity address.city),
              .cstr (normState address.state), .cstr v] ++ address.row] }) := by
  simp only [get_location_demographics_from_dict, h]
  rfl

/-- Witness for `get_location_city_state_value_error`: a raising engine on
a concrete city/state query; the log gains one row with normalized fields. -/
theorem get_location_city_state_value_error_witness :
    (failingEngine.by_city_and_state (normCity addrCityState.city)
        (normState addrCityState.state) none = Except.error "value error") ∧
    get_location_demographics_from_dict failingEngine addrCityState none true
        ⟨[], [], []⟩
      = (⟨"New York", "NY", "10001", ["colA"], [.cstr "x"]⟩,
         LookupResult.many [],
         ⟨[[.cstr "10001", .cstr "New York", .cstr "NY", .cstr "value error",
            .cstr "x"]], [], []⟩) :=
  ⟨rfl,
    (get_location_city_state_value_error failingEngine addrCityState none
      ⟨[], [], []⟩ "value error" rfl).trans (by decide)⟩

/-- C5: whenever the lookup service raises on a postal-code query, the
client catches the `ValueError`, appends one UnresolvedRecord row to the
lookup-failure log, and returns the empty result sequence. -/
theorem get_location_postal_value_error (engine : SearchEngine)
    (address : Address) (result_limit : Option Nat) (logs : GeoLogs) (v : String)
    (h : engine.by_zipcode (strTake5 address.zip) = Except.error v) :
    get_location_demographics_from_dict engine address result_limit false logs
      = ({ address with
            city := normCity address.city,
            state := normState address.state,
            zip := strTake5 address.zip },
         LookupResult.many [],
         { logs with value_errors := logs.value_errors ++
            [[.cstr (strTake5 address.zip), .cstr (normCity address.city),
              .cstr (normState address.state), .cstr v] ++ address.row] }) := by
  simp only [get_location_demographics_from_dict, h]
  rfl

/-- Witness for `get_location_postal_value_error`: a raising engine on a
concrete postal-code query. -/
theorem get_location_postal_value_error_witness :
    (failingEngine.by_zipcode (strTake5 addrExample.zip)
        = Except.error "value error") ∧
    get_location_demographics_from_dict failingEngine addrExample none false
        ⟨[], [], []⟩
      = (⟨"Anytown", "NY", "00000", ["Zip", "City", "State"],
          [.cstr "00000", .cstr "Anytown", .cstr "ny"]⟩,
         LookupResult.many [],
         ⟨[[.cstr "00000", .cstr "Anytown", .cstr "NY", .cstr "value error",
            .cstr "00000", .cstr "Anytown", .cstr "ny"]], [], []⟩) :=
  ⟨rfl,
    (get_location_postal_value_error failingEngine addrExample none
      ⟨[], [], []⟩ "value error" rfl).trans (by decide)⟩

/-- C2: evaluating `construct_municipal_area` at a postal-code query whose
returned record is unmappable (the service has no record, so attribute
resolution fails): one entry is appended to the separate unresolvable log,
but the builder then raises `ValueError: No objects to concatenate`
(`pd.concat` of zero copies of the source row) instead of returning the
empty metric-columned table — the failure propagates and aborts the
worker's batch. -/
theorem construct_municipal_area_unresolvable_raises :
    construct_municipal_area noneEngine addrExample none false ⟨[], [], []⟩
      = (Except.error "No objects to concatenate",
         ⟨[], [[.cstr "00000", .cstr "Anytown", .cstr "NY",
                .cstr attributeErrorMsg]], []⟩) := by
  rfl

theorem map_fst_dfSetCol {α : Type} (t : List (String × α)) (n : String) (v : α) :
    (dfSetCol t n v).map Prod.fst
      = if t.any (fun p => p.1 = n) then t.map Prod.fst
        else t.map Prod.fst ++ [n] := by
  unfold dfSetCol
  by_cases hc : t.any (fun p => p.1 = n) = true
  · rw [if_pos hc, if_pos hc, List.map_map]
    apply List.map_congr_left
    intro p _
    by_cases hp : p.1 = n
    · simp [hp]
    · simp [hp]
  · rw [if_neg hc, if_neg hc, List.map_append]
    rfl

theorem mem_map_fst_dfSetCol {α : Type} (t : List (String × α)) (n m : String)
    (v : α) (h : m ∈ t.map Prod.fst) : m ∈ (dfSetCol t n v).map Prod.fst := by
  rw [map_fst_dfSetCol]
  split
  · exact h
  · exact List.mem_append_left _ h

theorem self_mem_map_fst_dfSetCol {α : Type} (t : List (String × α))
    (n : String) (v : α) : n ∈ (dfSetCol t n v).map Prod.fst := by
  rw [map_fst_dfSetCol]
  split
  · next hc => exact (any_fst_eq_iff t n).mp hc
  · exact List.mem_append_right _ (List.mem_singleton.mpr rfl)

theorem mem_foldl_dfSetCol {α : Type} (items : List (String × α))
    (t : List (String × α)) (m : String) (h : m ∈ t.map Prod.fst) :
    m ∈ (items.foldl (fun d p => dfSetCol d p.1 p.2) t).map Prod.fst := by
  induction items generalizing t with
  | nil => exact h
  | cons q rest ih => exact ih _ (mem_map_fst_dfSetCol _ _ _ _ h)

theorem mem_item_foldl_dfSetCol {α : Type} (items : List (String × α))
    (t : List (String × α)) (p : String × α) (hp : p ∈ items) :
    p.1 ∈ (items.foldl (fun d q => dfSetCol d q.1 q.2) t).map Prod.fst := by
  induction items generalizing t with
  | nil => cases hp
  | cons q rest ih =>
      rcases List.mem_cons.mp hp with rfl | hmem
      · exact mem_foldl_dfSetCol rest _ _ (self_mem_map_fst_dfSetCol _ _ _)
      · exact ih _ hmem

theorem mem_addTimestampFeatures (cal : Int → Int → List Int)
    (df : List (String × PdCol)) (name m : String)
    (h : m ∈ df.map Prod.fst) :
    m ∈ (addTimestampFeatures cal df name).map Prod.fst :=
  mem_foldl_dfSetCol _ _ _ h

theorem featureCols_map_fst (cal : Int → Int → List Int) (name : String)
    (vals : List PdVal) :
    (featureCols cal name vals).map Prod.fst
      = featureSuffixes.map (fun s => name ++ s) := rfl

theorem feature_mem_addTimestampFeatures (cal : Int → Int → List Int)
    (df : List (String × PdCol)) (name s : String) (hs : s ∈ featureSuffixes) :
    (name ++ s) ∈ (addTimestampFeatures cal df name).map Prod.fst := by
  unfold addTimestampFeatures
  have hmem : (name ++ s) ∈
      (featureCols cal name ((dfGet df name).getD ⟨.dtDatetime, []⟩).vals).map
        Prod.fst := by
    rw [featureCols_map_fst]
    exact List.mem_map_of_mem _ hs
  obtain ⟨p, hp, hfst⟩ := List.mem_map.mp hmem
  exact hfst ▸ mem_item_foldl_dfSetCol _ _ _ hp

theorem mem_process_fold (cal : Int → Int → List Int) (cols : List String)
    (df : List (String × PdCol)) (m : String) (h : m ∈ df.map Prod.fst) :
    m ∈ (cols.foldl (addTimestampFeatures cal) df).map Prod.fst := by
  induction cols generalizing df with
  | nil => exact h
  | cons c rest ih =>
      rw [List.foldl_cons]
      exact ih _ (mem_addTimestampFeatures _ _ _ _ h)

theorem feature_mem_process_fold (cal : Int → Int → List Int)
    (cols : List String) (df : List (String × PdCol)) (name : String)
    (hname : name ∈ cols) (s : String) (hs : s ∈ featureSuffixes) :
    (name ++ s) ∈ (cols.foldl (addTimestampFeatures cal) df).map Prod.fst := by
  induction cols generalizing df with
  | nil => cases hname
  | cons c rest ih =>
      rw [List.foldl_cons]
      rcases List.mem_cons.mp hname with rfl | hmem
      · exact mem_process_fold cal rest _ _
          (feature_mem_addTimestampFeatures _ _ _ _ hs)
      · exact ih _ hmem

/-- C10: `process_timestamps` mutates the caller's dataframe in place: for
any table holding a timestamp column whose derived feature names are new,
after the call the caller's object (first component of the embedding)
carries all 14 derived feature columns and still carries the timestamp
column — only the separately-built returned frame drops it — so the input
object does not come back unchanged. -/
theorem process_timestamps_mutates (cal : Int → Int → List Int)
    (df : List (String × PdCol)) (name : String) (c : PdCol)
    (hmem : (name, c) ∈ df) (hdt : c.dtype = DType.dtDatetime)
    (hfresh : ∀ s ∈ featureSuffixes, (name ++ s) ∉ df.map Prod.fst) :
    (∀ s ∈ featureSuffixes,
      (name ++ s) ∈ (process_timestamps cal df).1.map Prod.fst) ∧
    name ∈ (process_timestamps cal df).1.map Prod.fst ∧
    (process_timestamps cal df).1 ≠ df := by
  have hdtCols : name ∈
      (df.filter (fun p => decide (p.2.dtype = DType.dtDatetime))).map Prod.fst :=
    List.mem_map_of_mem _ (List.mem_filter.mpr ⟨hmem, by simp [hdt]⟩)
  refine ⟨?_, ?_, ?_⟩
  · intro s hs
    exact feature_mem_process_fold cal _ df name hdtCols s hs
  · exact mem_process_fold cal _ df name (List.mem_map_of_mem Prod.fst hmem)
  · intro he
    have h1 : (name ++ "_near_holiday")
        ∈ (process_timestamps cal df).1.map Prod.fst :=
      feature_mem_process_fold cal _ df name hdtCols _ (by decide)
    rw [he] at h1
    exact hfresh _ (by decide) h1

/-- Witness for `process_timestamps_mutates` on the one-column hour-14
table. -/
theorem process_timestamps_mutates_witness :
    (("ts", (⟨.dtDatetime, [.vts tsHour14]⟩ : PdCol)) ∈ dfHour14) ∧
    ((⟨.dtDatetime, [.vts tsHour14]⟩ : PdCol).dtype = DType.dtDatetime) ∧
    (∀ s ∈ featureSuffixes, ("ts" ++ s) ∉ dfHour14.map Prod.fst) ∧
    (process_timestamps noHolidays dfHour14).1 ≠ dfHour14 :=
  ⟨by decide, rfl, by decide,
    (process_timestamps_mutates noHolidays dfHour14 "ts"
      ⟨.dtDatetime, [.vts tsHour14]⟩ (by decide) rfl (by decide)).2.2⟩

set_option maxHeartbeats 2000000 in
/-- C1: at a timestamp of hour 14 — an hour of the fixed afternoon tuple —
the code emits `False` for all four day-part flags: the source tests
`df[col].isin(hours)` against the raw timestamp values instead of
`df[col].dt.hour`, and a timestamp never equals a plain int, so
`is_afternoon` is not true at hour 14 as the spec requires. -/
theorem timestamps_daypart_flags_bug :
    tsHour14.hour = 14 ∧ pdIsin (.vint 14) afternoonInts = true ∧
    dfGet (process_timestamps noHolidays dfHour14).2 "ts_during_afternoon"
      = some ⟨.dtBool, [.vbool false]⟩ ∧
    dfGet (process_timestamps noHolidays dfHour14).2 "ts_during_morning"
      = some ⟨.dtBool, [.vbool false]⟩ ∧
    dfGet (process_timestamps noHolidays dfHour14).2 "ts_during_evening"
      = some ⟨.dtBool, [.vbool false]⟩ ∧
    dfGet (process_timestamps noHolidays dfHour14).2 "ts_during_night"
      = some ⟨.dtBool, [.vbool false]⟩ := by
  refine ⟨rfl, rfl, ?_, ?_, ?_, ?_⟩ <;> decide

set_option maxHeartbeats 2000000 in
/-- C8: on a column spanning [2022-06-26, 2022-07-05] the calendar really
does return the 2022-07-04 holiday for the column's `[min, max]` query, so
a row dated exactly 7 days before it must be flagged near-holiday per the
spec (and one 8 days before must not be).  The `holiday_weeks` window
index is built correctly — it does contain the day-19170 Timestamp — but
the code compares `df[col].dt.date` (`datetime.date` values) against that
index of Timestamps, and a date never equals a Timestamp under pandas
membership semantics, so the emitted flag is `False` for every row,
including the one 7 days before (and the one 1 day after) the holiday. -/
theorem timestamps_near_holiday_bug :
    julyFourthCal (listMinD (julyVals.map tsEpochDay))
      (listMaxD (julyVals.map tsEpochDay)) = [19177] ∧
    specNearHoliday [19177] tsJun27.epochDay = true ∧
    specNearHoliday [19177] tsJun26.epochDay = false ∧
    pdIsin (.vts (dayTs 19170)) (holidayWeeks [19177]) = true ∧
    dfGet (process_timestamps julyFourthCal dfJuly).2 "ts_near_holiday"
      = some ⟨.dtBool, [.vbool false, .vbool false, .vbool false]⟩ := by
  refine ⟨by decide, rfl, rfl, by decide, ?_⟩
  decide

end DSUtils
